import Mathlib

/-!
Shallow embedding of the slit_controller repository's core components, and
theorems settling the specification claims against it.

Bytes and 16-bit words are modelled as `Nat` with explicit masking where the
Rust source truncates (`as u8`, `as u16`).  Fallible operations return
`Except`; the byte stream read by a codec is modelled as a `List Nat` of the
bytes the peer will deliver, consumed from the front.
-/

namespace SlitCtrl

instance {ε α : Type _} [DecidableEq ε] [DecidableEq α] :
    DecidableEq (Except ε α) := fun x y =>
  match x, y with
  | .ok a, .ok b =>
    if h : a = b then .isTrue (by rw [h])
    else .isFalse fun hc => h (Except.ok.inj hc)
  | .error a, .error b =>
    if h : a = b then .isTrue (by rw [h])
    else .isFalse fun hc => h (Except.error.inj hc)
  | .ok _, .error _ => .isFalse fun hc => Except.noConfusion hc
  | .error _, .ok _ => .isFalse fun hc => Except.noConfusion hc

/-! ### Modbus-RTU codec (src/utilities/src/modbus.rs) -/

/-- Error taxonomy of `ModbusError` in src/utilities/src/modbus.rs. -/
inductive ModbusError where
  | ioError (msg : String)
  | invalidCrc (expected received : Nat)
  | invalidResponseLength (expected received : Nat)
  | invalidSlaveId (expected received : Nat)
  | invalidFunctionCode (expected received : Nat)
  | exceptionResponse (functionCode exceptionCode : Nat)
  | timeout
  | protocolError (msg : String)
  deriving DecidableEq, Repr

/-- One shift-and-conditional-xor round of the CRC-16 inner loop
(`if (crc & 0x0001) != 0 { crc >>= 1; crc ^= 0xA001 } else { crc >>= 1 }`). -/
def crc16_round (crc : Nat) : Nat :=
  if crc &&& 0x0001 ≠ 0 then (crc >>> 1) ^^^ 0xA001 else crc >>> 1

/-- Iterate `crc16_round` (the `for _ in 0..8` loop body). -/
def crc16_rounds : Nat → Nat → Nat
  | crc, 0 => crc
  | crc, n + 1 => crc16_rounds (crc16_round crc) n

/-- CRC-16 with polynomial 0xA001, initial value 0xFFFF
(`calculate_crc16` in src/utilities/src/modbus.rs). -/
def calculate_crc16 (data : List Nat) : Nat :=
  data.foldl (fun crc byte => crc16_rounds (crc ^^^ byte) 8) 0xFFFF

/-- Request frame built by `Modbus::read_holding_registers`, including its
register-count guard: `[id, 0x03, addr_hi, addr_lo, count_hi, count_lo]`
followed by the CRC appended low byte first. -/
def read_holding_registers_request (id address count : Nat) :
    Except ModbusError (List Nat) :=
  if count = 0 ∨ count > 125 then
    .error (.protocolError "Invalid register count. Must be between 1 and 125")
  else
    let request : List Nat :=
      [id, 0x03, (address >>> 8) % 256, address % 256,
       (count >>> 8) % 256, count % 256]
    let crc := calculate_crc16 request
    .ok (request ++ [crc &&& 0xFF, (crc >>> 8) % 256])

/-- Model of `read_exact`: take `n` bytes off the front of the stream, or fail
with an I/O error when the peer delivers fewer. Returns the bytes read and the
rest of the stream. -/
def read_exact (stream : List Nat) (n : Nat) :
    Except ModbusError (List Nat × List Nat) :=
  if n ≤ stream.length then .ok (stream.take n, stream.drop n)
  else .error (.ioError "failed to fill whole buffer")

/-- Model of `Modbus::send_receive`, from the point after the request has been
written: consume the response bytes from `stream` exactly as the source does.
Reads id then fc byte-by-byte; on `fc & 0x80` reads the exception frame and
checks its CRC before surfacing the exception; otherwise reads a
`byte_count`-sized body for the four read function codes or
`min_response_len - 2` further bytes for the rest, then checks, in order,
response length, slave id, and CRC over all bytes before the CRC field. -/
def send_receive (id : Nat) (min_response_len : Nat) (stream : List Nat) :
    Except ModbusError (List Nat) := do
  let (h0, s0) ← read_exact stream 1
  let b0 := h0.headD 0
  let (h1, s1) ← read_exact s0 1
  let b1 := h1.headD 0
  if b1 &&& 0x80 = 0x80 then
    let (h2, s2) ← read_exact s1 1
    let b2 := h2.headD 0
    let (hcrc, _) ← read_exact s2 2
    let received_crc := ((hcrc.getD 1 0) <<< 8) ||| (hcrc.headD 0)
    let calculated_crc := calculate_crc16 [b0, b1, b2]
    if calculated_crc ≠ received_crc then
      .error (.invalidCrc calculated_crc received_crc)
    else
      .error (.exceptionResponse (b1 &&& 0x7F) b2)
  else
    let readFc := b1 = 0x01 ∨ b1 = 0x02 ∨ b1 = 0x03 ∨ b1 = 0x04
    let (buffer, _) ←
      if readFc then do
        let (h2, s2) ← read_exact s1 1
        let b2 := h2.headD 0
        let remaining := b2 + 2
        let (body, s3) ← read_exact s2 remaining
        pure (([b0, b1, b2] ++ body), s3)
      else do
        let remaining := min_response_len - 2
        let (body, s2) ← read_exact s1 remaining
        pure (([b0, b1] ++ body), s2)
    if buffer.length < min_response_len then
      .error (.invalidResponseLength min_response_len buffer.length)
    else if b0 ≠ id then
      .error (.invalidSlaveId id b0)
    else
      let data_len := buffer.length - 2
      let received_crc := ((buffer.getD (data_len + 1) 0) <<< 8) |||
        (buffer.getD data_len 0)
      let calculated_crc := calculate_crc16 (buffer.take data_len)
      if calculated_crc ≠ received_crc then
        .error (.invalidCrc calculated_crc received_crc)
      else
        .ok buffer

/-! ### RF256 codec (src/rf256/src/lib.rs) -/

/-- Errors raised by the RF256 codec; the source uses `std::io::Error` with a
kind and a message, the kinds used here are `InvalidData` and the
`read_exact` EOF error. -/
inductive Rf256Error where
  | invalidData (msg : String)
  | eof
  deriving DecidableEq, Repr

/-- Wire expansion of one payload byte in `Rf256::send_command`:
`[0x80 | (b & 0x0F), 0x80 | ((b >> 4) & 0x0F)]`. -/
def rf256_encode_byte (b : Nat) : List Nat :=
  [0x80 ||| (b &&& 0x0F), 0x80 ||| ((b >>> 4) &&& 0x0F)]

/-- Request packet built by `Rf256::send_command`: device id, command with the
MSB set, then each payload byte expanded through `rf256_encode_byte`. -/
def rf256_send_command_packet (device_id command : Nat) (msg : Option (List Nat)) :
    List Nat :=
  [device_id, command ||| 0x80] ++
    (match msg with
     | none => []
     | some m => (m.map rf256_encode_byte).flatten)

/-- Per-chunk phase of `Rf256::read_response`: walk the wire bytes two at a
time; reject any chunk that is short or holds a byte with the MSB clear;
otherwise extract the decoded byte `low | (high << 4)` and the two counters
`chunk[i] >> 4`.  Returns the decoded bytes and the collected counters. -/
def rf256_decode_chunks : List Nat → Except Rf256Error (List Nat × List Nat)
  | [] => .ok ([], [])
  | [_] => .error (.invalidData "Invalid response format")
  | c0 :: c1 :: rest =>
    if c0 &&& 0x80 = 0 ∨ c1 &&& 0x80 = 0 then
      .error (.invalidData "Invalid response format")
    else do
      let (decoded, counters) ← rf256_decode_chunks rest
      .ok (((c0 &&& 0x0F) ||| ((c1 &&& 0x0F) <<< 4)) :: decoded,
           (c0 >>> 4) :: (c1 >>> 4) :: counters)

/-- The `counters.windows(2).all(|w| w[0] == w[1])` check. -/
def rf256_counters_match : List Nat → Bool
  | [] => true
  | [_] => true
  | a :: b :: rest => a = b && rf256_counters_match (b :: rest)

/-- Model of `Rf256::read_response`: read exactly `2 * expected_len` wire
bytes, decode them pairwise, and require all counters equal. -/
def rf256_read_response (expected_len : Nat) (stream : List Nat) :
    Except Rf256Error (List Nat) := do
  if stream.length < 2 * expected_len then
    .error .eof
  else
    let raw := stream.take (2 * expected_len)
    let (decoded, counters) ← rf256_decode_chunks raw
    if rf256_counters_match counters then
      .ok decoded
    else
      .error (.invalidData "Counters do not match")

/-! ### Moving-average filter (src/utilities/src/moving_average.rs, duplicated
verbatim in src/slit_controller/src/controller/move_thread.rs) -/

/-- The `MovingAverage` ring buffer; samples (f32 in the source) are modelled
as rationals. -/
structure MovingAverage where
  values : List ℚ
  max_size : Nat
  deriving DecidableEq, Repr

/-- `MovingAverage::new`: empty buffer of the given capacity. -/
def MovingAverage.new (max_size : Nat) : MovingAverage :=
  { values := [], max_size := max_size }

/-- `MovingAverage::add`: when the buffer is full, `remove(0)` (drop the
oldest entry, which for the non-empty buffers arising here is `List.tail`)
before pushing the new sample at the back. -/
def MovingAverage.add (m : MovingAverage) (value : ℚ) : MovingAverage :=
  if m.values.length ≥ m.max_size then
    { m with values := m.values.tail ++ [value] }
  else
    { m with values := m.values ++ [value] }

/-- Fold `MovingAverage.add` over a whole sequence of samples. -/
def MovingAverage.addAll (m : MovingAverage) (es : List ℚ) : MovingAverage :=
  es.foldl MovingAverage.add m

/-- `MovingAverage::get_rms`: 0 on an empty buffer, otherwise
`sqrt(sum_of_squares / len)`, the f32 arithmetic modelled over the reals. -/
noncomputable def MovingAverage.get_rms (m : MovingAverage) : ℝ :=
  if m.values = [] then 0
  else Real.sqrt ((((m.values.map (fun v => v * v)).sum : ℚ) : ℝ) /
    (m.values.length : ℝ))

/-! ### Position-loop step computation -/

/-- Truncation toward zero, the semantics of Rust's `f32 as i32` cast (for
in-range values). -/
def ratTruncToInt (q : ℚ) : ℤ :=
  if 0 ≤ q then ⌊q⌋ else ⌈q⌉

/-- `STEPS_PER_MM` constant in src/slit_controller/src/controller/move_thread.rs. -/
def STEPS_PER_MM : ℚ := 800

/-- Step-burst computation of `MoveThread::move_relative`
(src/slit_controller/src/controller/move_thread.rs): zero error emits nothing;
`|error| < 0.001` emits sub-steps `5` when `error > 0` else `-5`; otherwise
`(error * STEPS_PER_MM as f32) as i32` full steps. -/
def MoveThread.moveRelativeSteps (error : ℚ) : ℤ × ℤ :=
  if |error| = 0 then (0, 0)
  else if |error| < 1 / 1000 then (0, if error > 0 then 5 else -5)
  else (ratTruncToInt (error * STEPS_PER_MM), 0)

/-- Step-burst computation of `SlitMotor::move_relative`
(src/slit_controller/src/controllers/slit_controller/motor.rs), identical but
with a per-axis `steps_per_mm` field. -/
def SlitMotor.moveRelativeSteps (steps_per_mm : ℤ) (error : ℚ) : ℤ × ℤ :=
  if |error| = 0 then (0, 0)
  else if |error| < 1 / 1000 then (0, if error > 0 then 5 else -5)
  else (ratTruncToInt (error * (steps_per_mm : ℚ)), 0)

/-- Filter created by `MoveThread::new`: `MovingAverage::new(20)`. -/
def MoveThread.newFilter : MovingAverage := MovingAverage.new 20

/-- Filter created by `SlitMotor::new`: `MovingAverage::new(10)`. -/
def SlitMotor.newFilter : MovingAverage := MovingAverage.new 10

/-! ### Axis facade (src/slit_controller/src/controller/single_axis.rs and
src/utilities/src/motor_controller/mod.rs) -/

/-- `MovementParams` of single_axis.rs; the duration is kept in whole
seconds. -/
structure MovementParams where
  acceleration : Nat
  deceleration : Nat
  velocity : Nat
  position_window : ℚ
  time_limit_s : Nat
  deriving DecidableEq, Repr

/-- `MovementParams::default()`. -/
def MovementParams.default : MovementParams :=
  { acceleration := 500, deceleration := 500, velocity := 2000,
    position_window := 5 / 10000, time_limit_s := 60 }

/-- Observable state of one `SingleAxis`: the `moving` flag, the loop-thread
handle, and the motor's velocity/acceleration/deceleration registers (held by
the Standa drive behind the shared client, written by
`update_motor_settings`). -/
structure SingleAxisState where
  moving : Bool
  move_thread : Option Nat
  velocity : Nat
  acceleration : Nat
  deceleration : Nat
  deriving DecidableEq, Repr

/-- Outcome of the three register writes issued by
`SingleAxis::update_motor_settings`, abstracting the Modbus bus. -/
structure BusOutcome where
  velocity_ok : Bool
  acceleration_ok : Bool
  deceleration_ok : Bool
  deriving DecidableEq, Repr

/-- `SingleAxis::update_motor_settings`: set velocity, then acceleration,
then deceleration, stopping at the first failed write. -/
def updateMotorSettings (bus : BusOutcome) (params : MovementParams)
    (s : SingleAxisState) : SingleAxisState × Except String Unit :=
  if ¬ bus.velocity_ok then (s, .error "Failed to set velocity")
  else
    let s1 := { s with velocity := params.velocity }
    if ¬ bus.acceleration_ok then (s1, .error "Failed to set acceleration")
    else
      let s2 := { s1 with acceleration := params.acceleration }
      if ¬ bus.deceleration_ok then (s2, .error "Failed to set deceleration")
      else ({ s2 with deceleration := params.deceleration }, .ok ())

/-- `SingleAxis::move_to_position`: reject with the axis-busy error while
`moving` is set; otherwise update the motor settings, set `moving`, spawn the
move thread and store its handle. -/
def moveToPosition (bus : BusOutcome) (s : SingleAxisState) (_target : ℚ)
    (params : Option MovementParams) : SingleAxisState × Except String Unit :=
  if s.moving then (s, .error "Axis is already in motion")
  else
    let p := params.getD MovementParams.default
    let (s1, r) := updateMotorSettings bus p s
    match r with
    | .error e => (s1, .error ("Failed to update motor settings: " ++ e))
    | .ok _ =>
      let s2 := { s1 with moving := true }
      ({ s2 with move_thread := some 0 }, .ok ())

/-- State visible through the `MotorController` trait of
src/utilities/src/motor_controller/mod.rs; the effect of the implementor's
`update_parameters` and `init_motion` is abstract. -/
structure MotorCtlState where
  moving : Bool
  rest : Nat
  deriving DecidableEq, Repr

/-- Default-method body of `MotorController::move_to`: reject with the busy
error while moving; otherwise run `update_parameters`, set the moving flag and
run `init_motion`, each abstract step given as a state transformer that may
fail. -/
def motorControllerMoveTo
    (update_parameters : MotorCtlState → MotorCtlState × Except String Unit)
    (init_motion : MotorCtlState → MotorCtlState × Except String Unit)
    (s : MotorCtlState) : MotorCtlState × Except String Unit :=
  if s.moving then (s, .error "Motor is already in motion")
  else
    let (s1, r1) := update_parameters s
    match r1 with
    | .error e => (s1, .error e)
    | .ok _ =>
      let s2 := { s1 with moving := true }
      let (s3, r2) := init_motion s2
      match r2 with
      | .error e => (s3, .error e)
      | .ok _ => (s3, .ok ())

/-! ### Encoder / thermometer command executors
(src/slit_controller/src/command_executor/encoder/mod.rs and
src/slit_controller/src/command_executor/temperature/mod.rs) -/

/-- Outcome of a Rust computation that may also panic (index out of bounds). -/
inductive RustOutcome (α : Type) where
  | ok (a : α)
  | ioError (kind : String) (msg : String)
  | panicked
  deriving DecidableEq, Repr

/-- `Inner::verify_id` of the encoder executor: reads
`self.rf256[axis as usize].get_device_id()` — a plain array index that panics
when `axis` is out of range — and compares it with the id read from the bus
(`read_id_result`, abstracting the transport exchange). -/
def encoderVerifyId (rf256_ids : List Nat) (read_id_result : Except String Nat)
    (axis : Nat) : RustOutcome Unit :=
  if h : axis < rf256_ids.length then
    let id := rf256_ids.get ⟨axis, h⟩
    match read_id_result with
    | .error e => .ioError "io" e
    | .ok rid => if id ≠ rid then .ioError "InvalidData" "Device ID mismatch"
                 else .ok ()
  else
    .panicked

/-- `Inner::get_position` of the encoder executor: `verify_id`, on error a
`clear_buffer` and a second `verify_id`, then
`self.rf256[axis as usize].read_data(..)` — again a panicking index. The
transport interactions are abstracted by the oracle results. -/
def encoderGetPosition (rf256_ids : List Nat)
    (read_id1 read_id2 : Except String Nat) (clear_ok : Bool)
    (read_data_result : Except String ℚ) (axis : Nat) : RustOutcome ℚ :=
  let readData : RustOutcome ℚ :=
    if axis < rf256_ids.length then
      match read_data_result with
      | .ok v => .ok v
      | .error e => .ioError "io" e
    else .panicked
  match encoderVerifyId rf256_ids read_id1 axis with
  | .panicked => .panicked
  | .ok _ => readData
  | .ioError _ _ =>
    if ¬ clear_ok then .ioError "io" "clear_buffer failed"
    else
      match encoderVerifyId rf256_ids read_id2 axis with
      | .panicked => .panicked
      | .ioError k m => .ioError k m
      | .ok _ => readData

/-- `Inner::get_temperature` of the temperature executor: the axis lookup uses
`self.trid.get(axis as usize).ok_or_else(InvalidInput)`, i.e. an out-of-range
axis is answered with an invalid-input I/O error instead of panicking. -/
def tridGetTemperature (trid_ids : List Nat)
    (read_data_result : Except String ℚ) (axis : Nat) : RustOutcome ℚ :=
  match trid_ids.get? axis with
  | none => .ioError "InvalidInput" "Invalid Trid ID"
  | some _ =>
    match read_data_result with
    | .ok v => .ok v
    | .error e => .ioError "io" e

/-! ### Lazy TCP transport (src/utilities/src/lazy_tcp.rs) -/

/-- Body of the `for attempt in 0..=max_retries` loop of
`LazyTcpStream::connect`, with `fuel` many iterations left and the connect
attempts abstracted as `oracle`.  Returns the resulting `stream` option
(`some` = connected) together with the operation result; the fallback after
the loop is the "Max connection retries reached" error of the source. -/
def lazyConnectLoop (oracle : Nat → Except String Unit) (max_retries : Nat) :
    Nat → Nat → Option Unit × Except String Unit
  | 0, _ => (none, .error "Max connection retries reached")
  | fuel + 1, attempt =>
    match oracle attempt with
    | .ok _ => (some (), .ok ())
    | .error e =>
      if attempt = max_retries then (none, .error e)
      else lazyConnectLoop oracle max_retries fuel (attempt + 1)

/-- `LazyTcpStream::connect`: run the attempt loop over
`0..=max_retries`. -/
def lazyConnect (oracle : Nat → Except String Unit) (max_retries : Nat) :
    Option Unit × Except String Unit :=
  lazyConnectLoop oracle max_retries (max_retries + 1) 0

/-- `LazyTcpStream::ensure_connected`: connect only when there is no live
stream. -/
def lazyEnsureConnected (oracle : Nat → Except String Unit) (max_retries : Nat)
    (stream : Option Unit) : Option Unit × Except String Unit :=
  match stream with
  | some s => (some s, .ok ())
  | none => lazyConnect oracle max_retries

/-! ## Helper lemmas -/

theorem crc16_round_lt {crc : Nat} (h : crc < 65536) : crc16_round crc < 65536 := by
  unfold crc16_round
  have hs : crc >>> 1 < 65536 := by
    rw [Nat.shiftRight_eq_div_pow]
    exact Nat.lt_of_le_of_lt (Nat.div_le_self _ _) h
  split
  · exact Nat.xor_lt_two_pow (n := 16) hs (by norm_num)
  · exact hs

theorem crc16_rounds_lt : ∀ (n : Nat) {crc : Nat}, crc < 65536 →
    crc16_rounds crc n < 65536
  | 0, _, h => h
  | n + 1, _, h => crc16_rounds_lt n (crc16_round_lt h)

/-- The CRC register never leaves the 16-bit range, as for the `u16` it models. -/
theorem calculate_crc16_lt (data : List Nat) (h : ∀ b ∈ data, b < 65536) :
    calculate_crc16 data < 65536 := by
  unfold calculate_crc16
  have key : ∀ (l : List Nat) (crc : Nat), crc < 65536 → (∀ b ∈ l, b < 65536) →
      l.foldl (fun crc byte => crc16_rounds (crc ^^^ byte) 8) crc < 65536 := by
    intro l
    induction l with
    | nil => intro crc hc _; simpa using hc
    | cons b t ih =>
      intro crc hc hl
      simp only [List.foldl_cons]
      exact ih _ (crc16_rounds_lt 8
        (Nat.xor_lt_two_pow (n := 16) hc (hl b (by simp))))
        fun x hx => hl x (by simp [hx])
  exact key data 0xFFFF (by norm_num) h

/-- Any MSB-clear byte in the wire bytes makes the chunk decoder fail with
the invalid-data error, whichever chunk it falls in. -/
theorem rf256_decode_chunks_msb_clear : ∀ (l : List Nat),
    (∃ x ∈ l, x &&& 0x80 = 0) →
    rf256_decode_chunks l = .error (.invalidData "Invalid response format")
  | [], h => absurd h (by simp)
  | [_], _ => rfl
  | c0 :: c1 :: rest, h => by
    by_cases hg : c0 &&& 0x80 = 0 ∨ c1 &&& 0x80 = 0
    · simp [rf256_decode_chunks, hg]
    · push_neg at hg
      have hr : ∃ x ∈ rest, x &&& 0x80 = 0 := by
        rcases h with ⟨x, hx, hmsb⟩
        rcases List.mem_cons.mp hx with rfl | hx2
        · exact absurd hmsb hg.1
        · rcases List.mem_cons.mp hx2 with rfl | hx3
          · exact absurd hmsb hg.2
          · exact ⟨x, hx3, hmsb⟩
      have := rf256_decode_chunks_msb_clear rest hr
      simp [rf256_decode_chunks, hg.1, hg.2, this, Bind.bind, Except.bind]

/-- Content of the ring buffer after any sequence of `add`s: the suffix of
everything appended so far, truncated to the capacity. -/
theorem MovingAverage.addAll_values : ∀ (es : List ℚ) (m : MovingAverage),
    1 ≤ m.max_size → m.values.length ≤ m.max_size →
    (m.addAll es).values =
      (m.values ++ es).drop (m.values.length + es.length - m.max_size) := by
  intro es
  induction es with
  | nil =>
    intro m h1 h2
    simp only [MovingAverage.addAll, List.foldl_nil, List.append_nil,
      List.length_nil, Nat.add_zero]
    rw [Nat.sub_eq_zero_of_le h2, List.drop_zero]
  | cons e t ih =>
    intro m h1 h2
    have step : m.addAll (e :: t) = (m.add e).addAll t := by
      simp [MovingAverage.addAll, List.foldl_cons]
    rw [step]
    by_cases hfull : m.values.length ≥ m.max_size
    · have hlen : m.values.length = m.max_size := le_antisymm h2 hfull
      have hne : m.values ≠ [] := by
        intro hv
        rw [hv] at hlen
        simp at hlen
        omega
      have hadd : m.add e = { m with values := m.values.tail ++ [e] } := by
        simp [MovingAverage.add, hfull]
      rw [hadd]
      have htail_len : (m.values.tail ++ [e]).length ≤ m.max_size := by
        rw [List.length_append, List.length_tail]
        simp
        omega
      rw [ih _ (by simpa using h1) htail_len]
      obtain ⟨h0, v', hv⟩ := List.exists_cons_of_ne_nil hne
      rw [hv] at hlen ⊢
      simp only [List.tail_cons, List.length_append, List.length_cons,
        List.length_nil]
      simp only [List.length_cons] at hlen
      have hL2 : v'.length + (0 + 1) + t.length - m.max_size = t.length := by
        omega
      have hR : v'.length + 1 + (t.length + 1) - m.max_size = t.length + 1 := by
        omega
      rw [show v' ++ [e] ++ t = v' ++ e :: t by simp,
        show (h0 :: v') ++ e :: t = h0 :: (v' ++ e :: t) by simp]
      rw [hR, List.drop_succ_cons, hL2]
    · push_neg at hfull
      have hadd : m.add e = { m with values := m.values ++ [e] } := by
        simp [MovingAverage.add]
        intro hc
        omega
      rw [hadd]
      have hlen2 : (m.values ++ [e]).length ≤ m.max_size := by
        rw [List.length_append]
        simp
        omega
      rw [ih _ (by simpa using h1) hlen2]
      rw [show (m.values ++ [e]) ++ t = m.values ++ e :: t by simp]
      congr 1
      simp only [List.length_append, List.length_cons, List.length_nil]
      omega

/-! ## Claim theorems -/

/-- C2 counterexample: the claim says every position loop's moving-average
buffer has capacity exactly 20, but the loop in
src/slit_controller/src/controllers/slit_controller/motor.rs constructs its
filter with `MovingAverage::new(10)`. -/
theorem C2_counterexample :
    SlitMotor.newFilter.max_size = 10 ∧ (10 : Nat) ≠ 20 :=
  ⟨rfl, by decide⟩

/-- C2 (amended): the MoveThread loop's buffer has capacity 20 and the
SlitMotor loop's capacity 10; in both, after any sequence of appended errors
the buffer holds exactly the last `capacity` of them (so at most that many),
and appending to a full buffer drops the oldest entry (FIFO). -/
theorem C2_filter_capacity_fifo :
    MoveThread.newFilter.max_size = 20 ∧
    SlitMotor.newFilter.max_size = 10 ∧
    (∀ es : List ℚ,
      (MoveThread.newFilter.addAll es).values = es.drop (es.length - 20) ∧
      (SlitMotor.newFilter.addAll es).values = es.drop (es.length - 10)) ∧
    (∀ (m : MovingAverage) (v : ℚ), m.values.length = m.max_size →
      (m.add v).values = m.values.tail ++ [v]) := by
  refine ⟨rfl, rfl, fun es => ⟨?_, ?_⟩, fun m v h => ?_⟩
  · have := MovingAverage.addAll_values es MoveThread.newFilter
      (by decide) (by decide)
    simpa [MoveThread.newFilter, MovingAverage.new] using this
  · have := MovingAverage.addAll_values es SlitMotor.newFilter
      (by decide) (by decide)
    simpa [SlitMotor.newFilter, MovingAverage.new] using this
  · simp [MovingAverage.add, h]

/-- C2 witness: three errors pushed through the capacity-2 buffer [1, 2]
drop the oldest, and concrete runs of the two loop filters keep the last
20 and 10 samples respectively. -/
theorem C2_filter_capacity_fifo_witness :
    (MovingAverage.add ⟨[1, 2], 2⟩ 3).values = List.tail [1, 2] ++ [3] ∧
    (MoveThread.newFilter.addAll (List.replicate 25 (1 : ℚ))).values =
      (List.replicate 25 (1 : ℚ)).drop (25 - 20) :=
  ⟨C2_filter_capacity_fifo.2.2.2 ⟨[1, 2], 2⟩ 3 rfl,
   (C2_filter_capacity_fifo.2.2.1 (List.replicate 25 (1 : ℚ))).1⟩

set_option maxRecDepth 100000 in
/-- C5: for every byte b in [0,255], RF256-encoding b as the wire pair
`[0x80 | (b & 0x0F), 0x80 | ((b >> 4) & 0x0F)]` and decoding that pair yields
b again; and any response containing a wire byte whose MSB is clear is
rejected with the invalid-data error. -/
theorem C5_rf256_roundtrip :
    (∀ b : Nat, b < 256 →
      rf256_read_response 1 (rf256_encode_byte b) = .ok [b]) ∧
    (∀ (n : Nat) (stream : List Nat), stream.length = 2 * n →
      (∃ x ∈ stream, x &&& 0x80 = 0) →
      rf256_read_response n stream =
        .error (.invalidData "Invalid response format")) := by
  constructor
  · decide
  · intro n stream hlen hex
    have hnot : ¬ (stream.length < 2 * n) := by omega
    have htake : stream.take (2 * n) = stream := by
      rw [← hlen, List.take_length]
    simp [rf256_read_response, hnot, htake,
      rf256_decode_chunks_msb_clear stream hex, Bind.bind, Except.bind]

/-- C5 witness: byte 0xAB encodes to the wire pair [0x8B, 0x8A] and decodes
back to itself, and the two-byte response [0x8B, 0x0A] (second byte MSB
clear) is rejected with the invalid-data error. -/
theorem C5_rf256_roundtrip_witness :
    rf256_read_response 1 (rf256_encode_byte 0xAB) = .ok [0xAB] ∧
    rf256_read_response 1 [0x8B, 0x0A] =
      .error (.invalidData "Invalid response format") :=
  ⟨C5_rf256_roundtrip.1 0xAB (by decide),
   C5_rf256_roundtrip.2 1 [0x8B, 0x0A] (by decide)
     ⟨0x0A, by decide, by decide⟩⟩

set_option maxRecDepth 100000 in
/-- C6: for all slave ids in [1,247], 16-bit addresses, and counts in
[1,125], the read-holding-registers request emitted on the wire is exactly
`[id, 0x03, addr_hi, addr_lo, count_hi, count_lo, crc_lo, crc_hi]` with the
CRC-16 (polynomial 0xA001, initial value 0xFFFF, as computed by
`calculate_crc16`) appended low byte first; and the CRC of the bytes
{0x01,0x03,0x00,0x00,0x00,0x0A} is 0xCDC5. -/
theorem C6_modbus_read_request (id address count : Nat)
    (hid1 : 1 ≤ id) (hid2 : id ≤ 247) (haddr : address < 65536)
    (hc1 : 1 ≤ count) (hc2 : count ≤ 125) :
    read_holding_registers_request id address count =
      .ok [id, 0x03, address >>> 8, address % 256, count >>> 8, count % 256,
        calculate_crc16
          [id, 0x03, address >>> 8, address % 256, count >>> 8, count % 256]
          &&& 0xFF,
        calculate_crc16
          [id, 0x03, address >>> 8, address % 256, count >>> 8, count % 256]
          >>> 8] ∧
    calculate_crc16 [0x01, 0x03, 0x00, 0x00, 0x00, 0x0A] = 0xCDC5 := by
  constructor
  · have haddr_hi : (address >>> 8) % 256 = address >>> 8 := by
      apply Nat.mod_eq_of_lt
      rw [Nat.shiftRight_eq_div_pow]
      omega
    have hcount_hi : (count >>> 8) % 256 = count >>> 8 := by
      apply Nat.mod_eq_of_lt
      rw [Nat.shiftRight_eq_div_pow]
      omega
    have hcrc_lt : calculate_crc16
        [id, 0x03, address >>> 8, address % 256, count >>> 8, count % 256]
        < 65536 := by
      apply calculate_crc16_lt
      intro b hb
      have h1 : address >>> 8 < 65536 := by
        rw [Nat.shiftRight_eq_div_pow]; omega
      have h2 : count >>> 8 < 65536 := by
        rw [Nat.shiftRight_eq_div_pow]; omega
      have h3 : address % 256 < 256 := Nat.mod_lt _ (by norm_num)
      have h4 : count % 256 < 256 := Nat.mod_lt _ (by norm_num)
      simp only [List.mem_cons, List.mem_singleton] at hb
      rcases hb with rfl | rfl | rfl | rfl | rfl | rfl | h
      · omega
      · norm_num
      · omega
      · omega
      · omega
      · omega
      · simp at h
    have hcrc_hi : (calculate_crc16
        [id, 0x03, address >>> 8, address % 256, count >>> 8, count % 256]
        >>> 8) % 256 = calculate_crc16
        [id, 0x03, address >>> 8, address % 256, count >>> 8, count % 256]
        >>> 8 := by
      apply Nat.mod_eq_of_lt
      rw [Nat.shiftRight_eq_div_pow]
      omega
    simp only [read_holding_registers_request]
    rw [if_neg (by omega)]
    simp only [haddr_hi, hcount_hi, hcrc_hi]
    rfl
  · decide

/-- C6 witness: id 1, address 0, count 10 — the frame of the specification's
concrete CRC example. -/
theorem C6_modbus_read_request_witness :
    read_holding_registers_request 1 0 10 =
      .ok [1, 0x03, 0 >>> 8, 0 % 256, 10 >>> 8, 10 % 256,
        calculate_crc16 [1, 0x03, 0 >>> 8, 0 % 256, 10 >>> 8, 10 % 256] &&& 0xFF,
        calculate_crc16 [1, 0x03, 0 >>> 8, 0 % 256, 10 >>> 8, 10 % 256] >>> 8] ∧
    calculate_crc16 [0x01, 0x03, 0x00, 0x00, 0x00, 0x0A] = 0xCDC5 :=
  C6_modbus_read_request 1 0 10 (by norm_num) (by norm_num) (by norm_num)
    (by norm_num) (by norm_num)

set_option maxRecDepth 100000 in
/-- C7 counterexample: the response `[0x01, 0x83, 0x02, 0x00, 0x00]` has the
exception bit set in its function code, yet the codec answers with
`invalidCrc` (61888 = 0xF1C0 is the CRC of its first three bytes), not with the
exception-response error the claim promises for every such response. -/
theorem C7_counterexample :
    send_receive 1 5 [0x01, 0x83, 0x02, 0x00, 0x00] =
      .error (.invalidCrc 61888 0) ∧
    send_receive 1 5 [0x01, 0x83, 0x02, 0x00, 0x00] ≠
      .error (.exceptionResponse 3 2) := by
  constructor
  · rfl
  · intro h
    rw [show send_receive 1 5 [0x01, 0x83, 0x02, 0x00, 0x00] =
      .error (.invalidCrc 61888 0) from rfl] at h
    exact absurd (Except.error.inj h) (by intro hc; cases hc)

set_option maxRecDepth 100000 in
/-- C7 (amended): for every response whose function-code byte has bit 0x80
set and whose exception frame carries a CRC that matches the CRC-16 of its
first three bytes, the codec returns the exception-response error with
function code `fc & 0x7F` and the exception code read from the following
byte. (When the exception frame's CRC does not match, the codec returns
`invalidCrc` instead — see the counterexample.) -/
theorem C7_exception_decode (id min_len b0 fc code clo chi : Nat)
    (rest : List Nat) (hfc : fc &&& 0x80 = 0x80)
    (hcrc : (chi <<< 8) ||| clo = calculate_crc16 [b0, fc, code]) :
    send_receive id min_len (b0 :: fc :: code :: clo :: chi :: rest) =
      .error (.exceptionResponse (fc &&& 0x7F) code) := by
  simp [send_receive, read_exact, Bind.bind, Except.bind, hfc, ← hcrc]

set_option maxRecDepth 100000 in
/-- C7 witness: the exception frame `[0x01, 0x83, 0x02, 0xC0, 0xF1]` carries
the matching CRC 0xF1C0 and decodes to exception-response(0x03, 0x02). -/
theorem C7_exception_decode_witness :
    send_receive 1 5 [0x01, 0x83, 0x02, 0xC0, 0xF1] =
      .error (.exceptionResponse 3 2) := by
  have h := C7_exception_decode 1 5 0x01 0x83 0x02 0xC0 0xF1 []
    (by decide) (by decide)
  simpa using h

set_option maxRecDepth 100000 in
/-- C10: a non-exception response frame is validated in the fixed order
length, slave id, CRC.  First conjunct: for a write echo (function code 0x06,
8-byte frame) whose first byte differs from the requested slave id, the codec
returns invalid-slave-id whatever the CRC field holds.  Second conjunct: a
read response (function code 0x03) whose byte count makes the frame shorter
than expected is rejected as invalid-response-length even before the slave id
(and a fortiori the CRC) is looked at.  Third conjunct: with the length and
slave-id checks passing, a wrong CRC field is reported as invalid-crc. -/
theorem C10_validation_order :
    (∀ (id b0 : Nat) (rest : List Nat), b0 ≠ id → 6 ≤ rest.length →
      send_receive id 8 (b0 :: 0x06 :: rest) =
        .error (.invalidSlaveId id b0)) ∧
    (∀ (id b0 : Nat) (rest : List Nat), 2 ≤ rest.length →
      send_receive id 7 (b0 :: 0x03 :: 0 :: rest) =
        .error (.invalidResponseLength 7 5)) ∧
    send_receive 1 8 [1, 6, 0, 0, 0, 0, 0, 0] =
      .error (.invalidCrc 51849 0) := by
  refine ⟨?_, ?_, by rfl⟩
  · intro id b0 rest hne hlen
    have h2 : (8:Nat) ≤ rest.length + 2 := by omega
    have ht : (List.take 6 rest).length = 6 := by rw [List.length_take]; omega
    simp [send_receive, read_exact, Bind.bind, Except.bind, pure, Except.pure,
      h2, ht, hne, hlen]
  · intro id b0 rest hlen
    have ht : (List.take 2 rest).length = 2 := by rw [List.length_take]; omega
    simp [send_receive, read_exact, Bind.bind, Except.bind, pure, Except.pure,
      hlen, ht]

set_option maxRecDepth 100000 in
/-- C10 witness: a frame answering slave 1 with first byte 2 and a zeroed
(wrong) CRC field is rejected as invalid-slave-id, and a function-code-0x03
frame with byte count 0 as invalid-response-length. -/
theorem C10_validation_order_witness :
    send_receive 1 8 [2, 0x06, 0, 0, 0, 0, 0, 0] =
      .error (.invalidSlaveId 1 2) ∧
    send_receive 1 7 [9, 0x03, 0, 0, 0] =
      .error (.invalidResponseLength 7 5) :=
  ⟨C10_validation_order.1 1 2 [0, 0, 0, 0, 0, 0] (by decide) (by decide),
   C10_validation_order.2.1 1 9 [0, 0] (by decide)⟩

/-- C9: when the moving-average buffer holds 20 samples all equal to e, its
RMS equals `|e|`, and therefore the settle test `rms ≤ position_window` holds
iff `|e| ≤ position_window` (f32 arithmetic modelled over the reals). -/
theorem C9_rms_constant (m : MovingAverage) (e w : ℚ)
    (h : m.values = List.replicate 20 e) :
    m.get_rms = |(e : ℝ)| ∧ (m.get_rms ≤ (w : ℝ) ↔ |(e : ℝ)| ≤ (w : ℝ)) := by
  have hne : m.values ≠ [] := by rw [h]; simp
  have hrms : m.get_rms = |(e : ℝ)| := by
    rw [MovingAverage.get_rms, if_neg hne, h]
    simp only [List.map_replicate, List.sum_replicate, List.length_replicate,
      nsmul_eq_mul]
    push_cast
    rw [show ((20 : ℝ) * ((e : ℝ) * e)) / 20 = (e : ℝ) * e by ring]
    exact Real.sqrt_mul_self_eq_abs _
  exact ⟨hrms, by rw [hrms]⟩

/-- C9 witness: a buffer of twenty samples equal to 1 and window 1. -/
theorem C9_rms_constant_witness :
    (MovingAverage.get_rms ⟨List.replicate 20 1, 20⟩ = |((1 : ℚ) : ℝ)|) ∧
    (MovingAverage.get_rms ⟨List.replicate 20 1, 20⟩ ≤ ((1 : ℚ) : ℝ) ↔
      |((1 : ℚ) : ℝ)| ≤ ((1 : ℚ) : ℝ)) :=
  C9_rms_constant ⟨List.replicate 20 1, 20⟩ 1 1 rfl

/-- C1 counterexample: the claim's sign convention fails on the code.  At
error 1 mm the code commands `trunc(1 * 800) = 800` steps, not
`round(-1 * 800) = -800`; and at error 1/2000 mm (inside the nudge band) the
code commands `+5` sub-steps, the direction of `+error`, although
`-error < 0`. -/
theorem C1_counterexample :
    MoveThread.moveRelativeSteps 1 = (800, 0) ∧
    ((800 : ℤ), (0 : ℤ)) ≠ (-800, 0) ∧
    MoveThread.moveRelativeSteps (1 / 2000) = (0, 5) ∧
    (0 : ℤ) < 5 ∧ -(1 / 2000 : ℚ) < 0 := by
  refine ⟨?_, by decide, ?_, by decide, by norm_num⟩
  · unfold MoveThread.moveRelativeSteps
    rw [if_neg (by norm_num), if_neg (by norm_num)]
    rw [ratTruncToInt, if_pos (by norm_num [STEPS_PER_MM])]
    norm_num [STEPS_PER_MM]
  · unfold MoveThread.moveRelativeSteps
    rw [if_neg (by norm_num),
      if_pos (by rw [abs_of_pos (by norm_num)]; norm_num),
      if_pos (by norm_num)]

/-- C1 (amended): in one iteration of the position loop, for every position
error e: if e = 0 both loops command zero steps and zero sub-steps; if
`0 < |e| < 0.001` they command zero full steps and 5 sub-steps with the sign
of `+e` (the direction of the signed error, not of `-e`); otherwise they
command `trunc(e * steps_per_mm)` full steps — truncation toward zero, not
rounding — so the burst moves in the direction of the signed error. -/
theorem C1_move_relative_steps (e : ℚ) (spm : ℤ) :
    (e = 0 → MoveThread.moveRelativeSteps e = (0, 0) ∧
      SlitMotor.moveRelativeSteps spm e = (0, 0)) ∧
    (0 < |e| → |e| < 1 / 1000 →
      MoveThread.moveRelativeSteps e = (0, if 0 < e then 5 else -5) ∧
      SlitMotor.moveRelativeSteps spm e = (0, if 0 < e then 5 else -5)) ∧
    (1 / 1000 ≤ |e| →
      MoveThread.moveRelativeSteps e = (ratTruncToInt (e * STEPS_PER_MM), 0) ∧
      SlitMotor.moveRelativeSteps spm e = (ratTruncToInt (e * spm), 0) ∧
      (0 < e → 0 ≤ ratTruncToInt (e * STEPS_PER_MM)) ∧
      (e < 0 → ratTruncToInt (e * STEPS_PER_MM) ≤ 0)) := by
  refine ⟨fun h0 => ?_, fun hpos hsmall => ?_, fun hbig => ?_⟩
  · subst h0
    simp [MoveThread.moveRelativeSteps, SlitMotor.moveRelativeSteps]
  · have hne : |e| ≠ 0 := ne_of_gt hpos
    unfold MoveThread.moveRelativeSteps SlitMotor.moveRelativeSteps
    rw [if_neg hne, if_pos hsmall, if_neg hne, if_pos hsmall]
    exact ⟨rfl, rfl⟩
  · have hne : |e| ≠ 0 := by
      intro hz
      rw [hz] at hbig
      norm_num at hbig
    have hnlt : ¬ (|e| < 1 / 1000) := not_lt.mpr hbig
    unfold MoveThread.moveRelativeSteps SlitMotor.moveRelativeSteps
    rw [if_neg hne, if_neg hnlt, if_neg hne, if_neg hnlt]
    refine ⟨rfl, rfl, fun hp => ?_, fun hn => ?_⟩
    · have hq : (0 : ℚ) ≤ e * STEPS_PER_MM := by
        have h800 : (0 : ℚ) < STEPS_PER_MM := by norm_num [STEPS_PER_MM]
        positivity
      rw [ratTruncToInt, if_pos hq]
      exact Int.floor_nonneg.mpr hq
    · have hq : e * STEPS_PER_MM < 0 :=
        mul_neg_of_neg_of_pos hn (by norm_num [STEPS_PER_MM])
      rw [ratTruncToInt, if_neg (not_le.mpr hq)]
      exact Int.ceil_le.mpr (by exact_mod_cast le_of_lt hq)

/-- C1 witness: the three branches at errors 0, 1/2000 and 1 (with
steps_per_mm 800 for the SlitMotor loop). -/
theorem C1_move_relative_steps_witness :
    MoveThread.moveRelativeSteps 0 = (0, 0) ∧
    MoveThread.moveRelativeSteps (1 / 2000) =
      (0, if 0 < (1 / 2000 : ℚ) then 5 else -5) ∧
    SlitMotor.moveRelativeSteps 800 1 = (ratTruncToInt (1 * (800 : ℤ)), 0) :=
  ⟨((C1_move_relative_steps 0 800).1 rfl).1,
   ((C1_move_relative_steps (1 / 2000) 800).2.1
      (by rw [abs_of_pos (by norm_num)]; norm_num)
      (by rw [abs_of_pos (by norm_num)]; norm_num)).1,
   ((C1_move_relative_steps 1 800).2.2
      (by rw [abs_of_pos (by norm_num)]; norm_num)).2.1⟩

/-- C3: for every axis whose `moving` flag is true, `move_to` (both the
SingleAxis method and the MotorController trait default) returns the
axis-busy error and leaves the whole state — moving flag, loop-task handle,
and the motor's velocity/acceleration/deceleration settings — exactly as
before the call. -/
theorem C3_busy_reject (bus : BusOutcome) (s : SingleAxisState) (t : ℚ)
    (p : Option MovementParams)
    (upd ini : MotorCtlState → MotorCtlState × Except String Unit)
    (mc : MotorCtlState) (hs : s.moving = true) (hmc : mc.moving = true) :
    moveToPosition bus s t p = (s, .error "Axis is already in motion") ∧
    motorControllerMoveTo upd ini mc =
      (mc, .error "Motor is already in motion") := by
  constructor
  · simp [moveToPosition, hs]
  · simp [motorControllerMoveTo, hmc]

/-- C3 witness: a concrete busy axis is rejected unchanged. -/
theorem C3_busy_reject_witness :
    moveToPosition ⟨true, true, true⟩
        ⟨true, some 7, 2000, 500, 500⟩ 5 none =
      (⟨true, some 7, 2000, 500, 500⟩, .error "Axis is already in motion") ∧
    motorControllerMoveTo (fun s => (s, .ok ())) (fun s => (s, .ok ()))
        ⟨true, 3⟩ =
      (⟨true, 3⟩, .error "Motor is already in motion") :=
  C3_busy_reject ⟨true, true, true⟩ ⟨true, some 7, 2000, 500, 500⟩ 5 none
    (fun s => (s, .ok ())) (fun s => (s, .ok ())) ⟨true, 3⟩ rfl rfl

/-- C4: with the four configured encoder identities, a command addressing a
logical axis index ≥ 4 makes the encoder executor's `get_position` panic on
the plain array index (killing the worker) instead of returning the
invalid-input error; the sibling temperature executor, whose lookup uses
`.get(..).ok_or_else(InvalidInput)`, does return invalid-input for the same
out-of-range index, witnessing the intended contract. -/
theorem C4_axis_out_of_range (ids : List Nat) (r1 r2 : Except String Nat)
    (c : Bool) (rd : Except String ℚ) (axis : Nat)
    (hlen : ids.length = 4) (haxis : 4 ≤ axis) :
    encoderGetPosition ids r1 r2 c rd axis = .panicked ∧
    tridGetTemperature ids rd axis =
      .ioError "InvalidInput" "Invalid Trid ID" := by
  have hge : ¬ axis < ids.length := by omega
  constructor
  · simp [encoderGetPosition, encoderVerifyId, hge]
  · simp [tridGetTemperature,
      List.getElem?_eq_none (by omega : ids.length ≤ axis)]

/-- C4 witness: axis 4 against identities [1, 2, 3, 4]. -/
theorem C4_axis_out_of_range_witness :
    encoderGetPosition [1, 2, 3, 4] (.ok 1) (.ok 1) true (.ok 0) 4 =
      .panicked ∧
    tridGetTemperature [1, 2, 3, 4] (.ok 0) 4 =
      .ioError "InvalidInput" "Invalid Trid ID" :=
  C4_axis_out_of_range [1, 2, 3, 4] (.ok 1) (.ok 1) true (.ok 0) 4
    rfl (by decide)

/-- C8 counterexample: with max_retries = 2 and every connect attempt
refused, the operation fails with the last underlying connect error, not with
the "Max connection retries reached" error the claim names (that branch of
the source is unreachable: the final attempt returns its own error first). -/
theorem C8_counterexample :
    lazyConnect (fun _ => .error "Connection refused") 2 =
      (none, .error "Connection refused") ∧
    ("Connection refused" : String) ≠ "Max connection retries reached" :=
  ⟨rfl, by decide⟩

/-- Helper for C8: if every attempt from `attempt` on fails and the final
attempt fails with `e`, the connect loop returns `e` with no stream. -/
theorem lazyConnectLoop_all_fail (oracle : Nat → Except String Unit)
    (mr : Nat) (e : String) (hlast : oracle mr = .error e) :
    ∀ (fuel attempt : Nat), attempt + fuel = mr + 1 → attempt ≤ mr →
    (∀ i, attempt ≤ i → i < mr → ∃ err, oracle i = .error err) →
    lazyConnectLoop oracle mr fuel attempt = (none, .error e) := by
  intro fuel
  induction fuel with
  | zero => intro attempt h1 h2 _; omega
  | succ n ih =>
    intro attempt h1 h2 hf
    by_cases ha : attempt = mr
    · subst ha
      simp [lazyConnectLoop, hlast]
    · have hlt : attempt < mr := lt_of_le_of_ne h2 ha
      obtain ⟨err, herr⟩ := hf attempt le_rfl hlt
      rw [lazyConnectLoop, herr]
      simp only [ha, if_false]
      exact ih (attempt + 1) (by omega) (by omega)
        (fun i hi1 hi2 => hf i (by omega) hi2)

/-- C8 (amended): when all `max_retries + 1` connect attempts of one
operation fail, the operation fails with the last attempt's underlying
connect error (the "max retries reached" error is never surfaced), the
transport remains disconnected (`stream = none`), and the next call
(`ensure_connected` on a disconnected stream) attempts to open the connection
afresh, running the very same connect loop. -/
theorem C8_connect_failure (oracle : Nat → Except String Unit) (mr : Nat)
    (e : String) (hfail : ∀ i, i < mr → ∃ err, oracle i = .error err)
    (hlast : oracle mr = .error e) :
    lazyConnect oracle mr = (none, .error e) ∧
    lazyEnsureConnected oracle mr none = (none, .error e) := by
  have h := lazyConnectLoop_all_fail oracle mr e hlast (mr + 1) 0
    (by omega) (by omega) (fun i _ h2 => hfail i h2)
  exact ⟨h, by simpa [lazyEnsureConnected, lazyConnect] using h⟩

/-- C8 witness: two attempts (max_retries = 1), both refused. -/
theorem C8_connect_failure_witness :
    lazyConnect (fun _ => .error "Connection refused") 1 =
      (none, .error "Connection refused") ∧
    lazyEnsureConnected (fun _ => .error "Connection refused") 1 none =
      (none, .error "Connection refused") :=
  C8_connect_failure (fun _ => .error "Connection refused") 1
    "Connection refused" (fun _ _ => ⟨"Connection refused", rfl⟩) rfl

end SlitCtrl
